import Mathlib

/-!
# Verification of `resizer.py` (jlindenbaum/android-res-resize)

A shallow embedding of the single source file `src/resresizer/resizer.py`
(a Python 2 script, 2012-2014) and proofs about the claims of its
specification.

Modelling conventions:
* Strings and file-system paths are lists of characters (`S`); `chars`
  converts a Lean string literal.
* `os.path.join`, `os.path.splitext`, slicing `s[-6:]`, substring tests
  (`"@3x" in s`) and `str.replace` are modelled faithfully after CPython's
  `posixpath` implementation, on `S`.
* The file system is a map from paths to optionally-decodable images
  (`Disk`); `PIL.Image.open` on a missing/corrupt path raises, modelled by
  `RunErr`.  Image pixel data is abstracted; an image is its size, and
  `Image.resize((w, h))` yields the image of size `(w, h)`.
* Writes performed by `Image.save` are collected in order in a list; an
  escaping Python exception is the `Option RunErr` component of a result,
  and the writes performed before the exception are kept
  (`os.makedirs` is modelled as always succeeding: the model file system
  has no permission failures).
* Python floats are modelled as exact rationals (the decimal values of the
  source's literals); `round()` of Python 2 rounds half away from zero.
  Rational arithmetic is implemented on the exact `num`/`den`
  representation (`natMulRat`, `pyRound`) so that it is kernel-reducible;
  `natMulRat_eq` and `pyRound_nonneg_eq` prove agreement with the
  mathematical operations.
-/

/-- Strings of the embedded program: lists of characters. -/
abbrev S : Type := List Char

/-- Conversion of a Lean string literal into `S`. -/
def chars (s : String) : S := s.toList

/-- `startsWithL p s` is true iff `p` is an initial segment of `s`. -/
def startsWithL : S → S → Bool
  | [], _ => true
  | _ :: _, [] => false
  | p :: ps, c :: cs => p == c && startsWithL ps cs

/-- True iff the last character of `s` is `'/'` (Python `s.endswith('/')`). -/
def endsWithSlash (s : S) : Bool :=
  match s.getLast? with
  | some c => c == '/'
  | none => false

/-- Split `s` at the last occurrence of `ch`: `splitLast ch s = some (b, a)`
with `s = b ++ ch :: a` and `ch ∉ a`, or `none` if `ch ∉ s`. -/
def splitLast (ch : Char) : S → Option (S × S)
  | [] => none
  | a :: rest =>
    match splitLast ch rest with
    | some (b, aft) => some (a :: b, aft)
    | none => if a = ch then some ([], rest) else none

/-- `posixpath.splitext` on a path's final component: split off the
extension at the component's last dot, unless all characters before that
dot are dots (CPython skips a leading run of dots, so `".png"` has no
extension). -/
def splitextComp (comp : S) : S × S :=
  match splitLast '.' comp with
  | some (pre, post) => if pre.any (fun c => c ≠ '.') then (pre, '.' :: post) else (comp, [])
  | none => (comp, [])

/-- `os.path.splitext`: the extension starts at the last dot of the final
path component (the part after the last `'/'`). -/
def splitext (p : S) : S × S :=
  match splitLast '/' p with
  | some (d, comp) =>
    let be := splitextComp comp
    (d ++ '/' :: be.1, be.2)
  | none => splitextComp p

/-- `os.path.join a b` (POSIX, two arguments): an absolute `b` discards
`a`; an empty or `'/'`-terminated `a` is concatenated directly; otherwise
a `'/'` separator is inserted. -/
def pyJoin (a b : S) : S :=
  if startsWithL (chars "/") b then b
  else if a = [] then b
  else if endsWithSlash a then a ++ b
  else a ++ '/' :: b

/-- Python's substring test `pat in s`. -/
def containsSub (pat : S) : S → Bool
  | [] => pat.isEmpty
  | c :: rest => startsWithL pat (c :: rest) || containsSub pat rest

/-- Fuel-driven worker for `replaceAll` (structural recursion on the fuel,
so that the kernel can evaluate it; the fuel never runs out when it starts
at `s.length`, see `replaceAllF_fuel`). -/
def replaceAllF (pat rep : S) : ℕ → S → S
  | 0, s => s
  | _ + 1, [] => []
  | fuel + 1, c :: rest =>
    if startsWithL pat (c :: rest) then
      rep ++ replaceAllF pat rep fuel (List.drop (pat.length - 1) rest)
    else
      c :: replaceAllF pat rep fuel rest

/-- Python's `s.replace(pat, rep)` for a nonempty `pat`: replace all
non-overlapping occurrences, scanning left to right.  (For `pat = []` this
deviates from CPython; the program only ever replaces `"@3x"`.) -/
def replaceAll (pat rep : S) (s : S) : S := replaceAllF pat rep s.length s

/-- Python's slice `s[-6:]`: the last six characters (all of `s` if it is
shorter). -/
def pyLast6 (s : S) : S := s.drop (s.length - 6)

/-- Decimal rendering of a natural number (Python `"%d" % n`). -/
def natChars (n : ℕ) : S := (Nat.repr n).toList

/-- Multiplication of a natural number by a rational, computed on the
exact representation so that it is kernel-reducible (the `Mul ℚ` instance
of Mathlib is built from `Rat.mul`, which is `@[irreducible]`). -/
def natMulRat (d : ℕ) (q : ℚ) : ℚ := Rat.divInt (d * q.num) q.den

/-- Python 2's built-in `round()` (round half away from zero) composed
with `int()` (the identity on the integral result of `round`), computed on
the exact `num`/`den` representation.  `pyRound_nonneg_eq` identifies it
with `⌊q + 1/2⌋` on nonnegative arguments. -/
def pyRound (q : ℚ) : ℤ :=
  if 0 ≤ q.num then (2 * q.num + q.den) / (2 * q.den)
  else -((2 * (-q.num) + q.den) / (2 * q.den))

/-- Round half away from zero, as the specification words it ("standard
round, never truncation").  Stated with Mathlib's floor and ceiling; used
only on the specification side of refinement statements. -/
def roundHalfAwayFromZero (q : ℚ) : ℤ :=
  if 0 ≤ q then ⌊q + 1/2⌋ else ⌈q - 1/2⌉

/-- `scale_image`'s per-dimension arithmetic (`resizer.py` lines 132-138):
`new = int(round(d * scale)); if new < 1: new = 1`. -/
def scaleDim (d : ℕ) (scale : ℚ) : ℕ :=
  let n : ℤ := pyRound (natMulRat d scale)
  (if n < 1 then 1 else n).toNat

/-- A decoded image, abstracted to its pixel dimensions. -/
structure Img where
  width : ℕ
  height : ℕ
deriving DecidableEq, Repr

/-- The file system visible to `PIL.Image.open`: maps a path to `some`
image if a decodable image file is there, `none` if the path is missing or
the file is corrupt/unreadable (in which case `Image.open` raises). -/
def Disk : Type := S → Option Img

/-- One `Image.save` call: destination path and saved image. -/
abbrev FileWrite : Type := S × Img

/-- A Python exception escaping the embedded code. -/
inductive RunErr where
  /-- `IOError` from `Image.open` on a missing or unreadable file. -/
  | decodeError (path : S) : RunErr
  /-- `AttributeError` from calling `.save` on `None` (unreachable in the
  guarded flows). -/
  | noneImage : RunErr
deriving DecidableEq, Repr

/-- The observable outcome of running a piece of the script: the writes
performed, in order, and the exception that escaped, if any. -/
abbrev ProcResult : Type := List FileWrite × Option RunErr

instance {ε α : Type} [DecidableEq ε] [DecidableEq α] : DecidableEq (Except ε α) :=
  fun x y =>
    match x, y with
    | Except.ok a, Except.ok b =>
      if h : a = b then isTrue (by rw [h]) else isFalse (by simp [h])
    | Except.error a, Except.error b =>
      if h : a = b then isTrue (by rw [h]) else isFalse (by simp [h])
    | Except.ok _, Except.error _ => isFalse (by simp)
    | Except.error _, Except.ok _ => isFalse (by simp)

namespace BaseResizer

/-- `BaseResizer.ACCEPTED_EXTENSIONS = ['.png', '.jpg']`. -/
def ACCEPTED_EXTENSIONS : List S := [chars ".png", chars ".jpg"]

/-- `BaseResizer.UNACCEPTED_EXTENSIONS = ['.9.png']`. -/
def UNACCEPTED_EXTENSIONS : List S := [chars ".9.png"]

/-- `BaseResizer.can_process_file` (lines 142-148): the extension must be
in the accepted list. -/
def can_process_file (file_extension : S) : Bool :=
  decide (file_extension ∈ ACCEPTED_EXTENSIONS)

/-- `BaseResizer.resize_image` (lines 71-82): check the extension of
`file_name`, open `folder_path/file_name` (raising if undecodable), resize
to `(width, height)`, save to the same path if `save`, and return the
resized image.  When the extension check fails, Python falls off the end
of the function and returns `None`. -/
def resize_image (disk : Disk) (folder_path file_name : S) (width height : ℕ)
    (save : Bool) : List FileWrite × Except RunErr (Option Img) :=
  let be := splitext file_name
  if can_process_file be.2 then
    let file_path := pyJoin folder_path file_name
    match disk file_path with
    | none => ([], Except.error (RunErr.decodeError file_path))
    | some _ =>
      let resized_image : Img := ⟨width, height⟩
      (if save then [(file_path, resized_image)] else [], Except.ok (some resized_image))
  else ([], Except.ok none)

/-- `BaseResizer.scale_image` (lines 120-140): open `file_path` (raising
if undecodable), compute the scaled dimensions with `int(round(_ * scale))`
clamped below by 1 (`scaleDim`), and delegate to
`resize_image('', file_path, ...)` with `save=False`. -/
def scale_image (disk : Disk) (file_path : S) (scale : ℚ) :
    List FileWrite × Except RunErr (Option Img) :=
  match disk file_path with
  | none => ([], Except.error (RunErr.decodeError file_path))
  | some image =>
    let new_width := scaleDim image.width scale
    let new_height := scaleDim image.height scale
    resize_image disk [] file_path new_width new_height false

/-- `BaseResizer.png_convert_image` (lines 90-106): check the extension of
`file_name`, open `folder_path/file_name` (raising if undecodable), and
save the decoded image as `folder_path/<base_name>.png`. -/
def png_convert_image (disk : Disk) (folder_path file_name : S) : ProcResult :=
  let be := splitext file_name
  if can_process_file be.2 then
    let file_path := pyJoin folder_path file_name
    match disk file_path with
    | none => ([], some (RunErr.decodeError file_path))
    | some image =>
      let save_file_path := pyJoin folder_path (be.1 ++ chars ".png")
      ([(save_file_path, image)], none)
  else ([], none)

/-- `BaseResizer.resize_all_in_folder` (lines 58-69): iterate over the
folder's file names; names whose slice `[-6:]` is in
`UNACCEPTED_EXTENSIONS` (NinePatch files) are skipped; the others are
passed to the platform's `process_file`, whose dynamic dispatch is the
`process` parameter.  There is no exception handling: an exception raised
by `process` aborts the remaining iterations. -/
def resize_all_in_folder (process : S → S → ProcResult) (input_path : S) :
    List S → ProcResult
  | [] => ([], none)
  | file_name :: rest =>
    if pyLast6 file_name ∈ UNACCEPTED_EXTENSIONS then
      resize_all_in_folder process input_path rest
    else
      match process input_path file_name with
      | (ws, some e) => (ws, some e)
      | (ws, none) =>
        let r := resize_all_in_folder process input_path rest
        (ws ++ r.1, r.2)

/-- `BaseResizer.set_exclude_scale` (lines 42-47): stores the caller's
exclusion list in the instance attribute `EXCLUDE_SCALE` and nothing else;
the function returns the new value of that attribute. -/
def set_exclude_scale (scale : List S) : List S := scale

end BaseResizer

namespace AndroidResResize

/-- `AndroidResResize.SCALES` (lines 165-170), in insertion order of the
dict literal (Python's dict iteration order is implementation-defined; the
outputs are order-independent).  The float constants `float(3)/4`,
`float(2)/4`, `float(1.5)/4`, `float(1)/4` are the exact rationals
3/4, 2/4, 1.5/4, 1/4. -/
def SCALES : List (S × ℚ) :=
  [(chars "xxhdpi", mkRat 3 4),
   (chars "xhdpi", mkRat 2 4),
   (chars "hdpi", mkRat 15 40),
   (chars "mdpi", mkRat 1 4)]

/-- Loop body of `AndroidResResize.process_file` (lines 177-192): for each
`(scale_name, scale_value)`, scale the source image (raising if it cannot
be decoded), create `input_directory/../drawable-<scale_name>/` (directory
creation always succeeds in the model file system) and save the scaled
image there under the unchanged `file_name`. -/
def scalesLoop (disk : Disk) (input_directory file_name file_path : S) :
    List (S × ℚ) → ProcResult
  | [] => ([], none)
  | (scale_name, scale_value) :: rest =>
    match BaseResizer.scale_image disk file_path scale_value with
    | (ws, Except.error e) => (ws, some e)
    | (ws, Except.ok none) => (ws, some RunErr.noneImage)
    | (ws, Except.ok (some new_image)) =>
      let scale_dir := chars "../drawable-" ++ scale_name ++ chars "/"
      let output_directory := pyJoin input_directory scale_dir
      let output_file_path := pyJoin output_directory file_name
      let r := scalesLoop disk input_directory file_name file_path rest
      (ws ++ (output_file_path, new_image) :: r.1, r.2)

/-- `AndroidResResize.process_file` (lines 172-192).  The `EXCLUDE_SCALE`
state stored by `BaseResizer.set_exclude_scale` (lines 42-47) is passed in
but — exactly as in the source, where no method ever reads
`self.EXCLUDE_SCALE` — it is never consulted. -/
def process_file (EXCLUDE_SCALE : List S) (disk : Disk)
    (input_directory file_name : S) : ProcResult :=
  let file_path := pyJoin input_directory file_name
  let be := splitext file_path
  if BaseResizer.can_process_file be.2 then
    scalesLoop disk input_directory file_name file_path SCALES
  else ([], none)

end AndroidResResize

namespace IOSResResize

/-- `IOSResResize.SCALES` (lines 203-206), in insertion order.  The float
literals `0.66666666666666` and `0.33333333333333` are modelled as the
exact decimal rationals they denote. -/
def SCALES : List (S × ℚ) :=
  [(chars "@2x", mkRat 66666666666666 100000000000000),
   (chars "@1x", mkRat 33333333333333 100000000000000)]

/-- `IOSResResize.APP_ICON_SIZES` (line 208). -/
def APP_ICON_SIZES : List ℕ := [29, 40, 58, 76, 80, 87, 120, 152, 167, 180]

/-- `IOSResResize.should_process_file` (lines 233-246): the extension must
be accepted, and the base name must contain `"@3x"` unless app-icon mode
(`self.app_icon`, passed here as a parameter) is on. -/
def should_process_file (base_name file_extension : S) (app_icon : Bool) : Bool :=
  BaseResizer.can_process_file file_extension
    && (containsSub (chars "@3x") base_name || app_icon)

/-- Loop body of `IOSResResize.process_file` (lines 255-258): for each
`(scale_name, scale_value)`, scale the source image and save it to
`os.path.join(input_directory, stripped_base_name + scale_name +
file_extension)`. -/
def scalesLoop (disk : Disk)
    (input_directory file_path stripped_base_name file_extension : S) :
    List (S × ℚ) → ProcResult
  | [] => ([], none)
  | (scale_name, scale_value) :: rest =>
    match BaseResizer.scale_image disk file_path scale_value with
    | (ws, Except.error e) => (ws, some e)
    | (ws, Except.ok none) => (ws, some RunErr.noneImage)
    | (ws, Except.ok (some new_image)) =>
      let new_file_path :=
        pyJoin input_directory (stripped_base_name ++ scale_name ++ file_extension)
      let r := scalesLoop disk input_directory file_path stripped_base_name
        file_extension rest
      (ws ++ (new_file_path, new_image) :: r.1, r.2)

/-- `IOSResResize.process_file` (lines 248-258): `base_name` is taken from
`splitext` of the full joined path; `stripped_base_name` removes every
occurrence of `"@3x"` from it (`str.replace` with no count argument). -/
def process_file (app_icon : Bool) (disk : Disk)
    (input_directory file_name : S) : ProcResult :=
  let file_path := pyJoin input_directory file_name
  let be := splitext file_path
  if should_process_file be.1 be.2 app_icon then
    let stripped_base_name := replaceAll (chars "@3x") [] be.1
    scalesLoop disk input_directory file_path stripped_base_name be.2 SCALES
  else ([], none)

/-- Loop body of `IOSResResize.process_app_icon` (lines 227-231): for each
icon size, resize the source to the square `(size, size)` and save it to
`input_directory/<base_file_name>-<size>x<size><file_extension>`. -/
def appIconLoop (disk : Disk)
    (input_directory file_path base_file_name file_extension : S) :
    List ℕ → ProcResult
  | [] => ([], none)
  | img_size :: rest =>
    match BaseResizer.resize_image disk [] file_path img_size img_size false with
    | (ws, Except.error e) => (ws, some e)
    | (ws, Except.ok none) => (ws, some RunErr.noneImage)
    | (ws, Except.ok (some image)) =>
      let new_file_name := base_file_name ++ chars "-" ++ natChars img_size
        ++ chars "x" ++ natChars img_size ++ file_extension
      let new_file_path := pyJoin input_directory new_file_name
      let r := appIconLoop disk input_directory file_path base_file_name
        file_extension rest
      (ws ++ (new_file_path, image) :: r.1, r.2)

/-- `IOSResResize.process_app_icon` (lines 213-231): `base_name` and
`file_extension` come from `splitext` of the full joined path,
`base_file_name` from `splitext` of `file_name` alone. -/
def process_app_icon (app_icon : Bool) (disk : Disk)
    (input_directory file_name : S) : ProcResult :=
  let file_path := pyJoin input_directory file_name
  let be := splitext file_path
  let bfn := splitext file_name
  if should_process_file be.1 be.2 app_icon then
    appIconLoop disk input_directory file_path bfn.1 be.2 APP_ICON_SIZES
  else ([], none)

end IOSResResize

/-- The single-file branch of `process_resizing` (lines 282-300): exact
`WxH` resize mode calls `resize_image` with `save=True` (its default);
`width` and `height` are the integers parsed from the `WxH` argument. -/
def process_resizing_file (disk : Disk) (input_directory file_name : S)
    (width height : ℕ) : List FileWrite × Except RunErr (Option Img) :=
  BaseResizer.resize_image disk input_directory file_name width height true

/-! ## Concrete file systems used by witnesses and counterexamples -/

/-- A folder `res` holding a decodable 64×64 `icon.png`. -/
def diskIcon : Disk := fun p => if p = chars "res/icon.png" then some ⟨64, 64⟩ else none

/-- A folder `res` holding an unreadable `bad.png` and a decodable 100×100
`good.png`. -/
def diskBadGood : Disk := fun p =>
  if p = chars "res/good.png" then some ⟨100, 100⟩ else none

/-- A folder `res` holding a 300×300 source whose stem contains `"@3x"`
twice. -/
def diskDouble3x : Disk := fun p =>
  if p = chars "res/a@3x@3x.png" then some ⟨300, 300⟩ else none

/-- A 192×192 Android source in a `res/drawable-xxxhdpi` folder. -/
def diskXxxhdpi : Disk := fun p =>
  if p = chars "res/drawable-xxxhdpi/icon.png" then some ⟨192, 192⟩ else none

/-- A decodable 10×10 NinePatch file `button.9.png` in folder `res`. -/
def diskNinePatch : Disk := fun p =>
  if p = chars "res/button.9.png" then some ⟨10, 10⟩ else none

/-- A 300×300 `logo.png` (no `"@3x"` in its name) inside a directory whose
name contains `"@3x"`. -/
def diskDirAt3x : Disk := fun p =>
  if p = chars "art@3x/logo.png" then some ⟨300, 300⟩ else none

/-- A 300×300 `logo.png` in a plain `icons` directory. -/
def diskLogo : Disk := fun p =>
  if p = chars "icons/logo.png" then some ⟨300, 300⟩ else none

/-- A 33×44 JPEG and a decodable 5×6 PNG in folder `dir`. -/
def diskConvert : Disk := fun p =>
  if p = chars "dir/photo.jpg" then some ⟨33, 44⟩
  else if p = chars "dir/pic.png" then some ⟨5, 6⟩ else none

/-- A 400×300 `banner.png` in folder `res`. -/
def diskBanner : Disk := fun p =>
  if p = chars "res/banner.png" then some ⟨400, 300⟩ else none

/-- A 300×300 `bg.png` inside a directory whose name contains `"@3x"`. -/
def diskBg : Disk := fun p =>
  if p = chars "assets@3x/bg.png" then some ⟨300, 300⟩ else none

/-- A 300×300 `icon@3x.png` addressed with an empty input directory (the
way `--file icon@3x.png` splits into `('', 'icon@3x.png')`). -/
def diskAt3x : Disk := fun p =>
  if p = chars "icon@3x.png" then some ⟨300, 300⟩ else none

/-! ## Arithmetic lemmas -/

theorem natMulRat_eq (d : ℕ) (q : ℚ) : natMulRat d q = (d : ℚ) * q := by
  rw [natMulRat]
  conv_rhs => rw [← Rat.num_divInt_den q]
  rw [show ((d : ℚ)) = ((d : ℤ) : ℚ) by push_cast; ring]
  rw [Rat.intCast_eq_divInt, Rat.divInt_mul_divInt', one_mul]

theorem pyRound_nonneg_eq (q : ℚ) (hq : 0 ≤ q) : pyRound q = ⌊q + 1/2⌋ := by
  rw [pyRound, if_pos (Rat.num_nonneg.mpr hq)]
  have h : q + 1/2 = ((2 * q.num + q.den : ℤ) : ℚ) / ((2 * q.den : ℕ) : ℚ) := by
    have hden : (q.den : ℚ) ≠ 0 := by positivity
    conv_lhs => rw [← Rat.num_div_den q]
    push_cast
    field_simp
    ring
  rw [h, Rat.floor_intCast_div_natCast]
  push_cast
  ring_nf

/-- On a positive source dimension and a positive factor, the clamped
Python rounding of the code agrees with `max 1 (round(d*f))`, the
specification's formula with round-half-away-from-zero. -/
theorem scaleDim_eq_max (d : ℕ) (q : ℚ) (hd : 0 < d) (hq : 0 < q) :
    (scaleDim d q : ℤ) = max 1 (roundHalfAwayFromZero ((d : ℚ) * q)) := by
  have hdq : (0 : ℚ) < (d : ℚ) * q := by
    have : (0 : ℚ) < (d : ℚ) := by exact_mod_cast hd
    exact mul_pos this hq
  have hround : pyRound (natMulRat d q) = ⌊(d : ℚ) * q + 1/2⌋ := by
    rw [natMulRat_eq, pyRound_nonneg_eq _ hdq.le]
  have hspec : roundHalfAwayFromZero ((d : ℚ) * q) = ⌊(d : ℚ) * q + 1/2⌋ := by
    rw [roundHalfAwayFromZero, if_pos hdq.le]
  have hfloor : 0 ≤ ⌊(d : ℚ) * q + 1/2⌋ := by
    apply Int.floor_nonneg.mpr
    positivity
  rw [scaleDim, hspec]
  simp only [hround]
  omega

/-- The target dimension is always at least 1. -/
theorem scaleDim_ge_one (d : ℕ) (q : ℚ) : 1 ≤ scaleDim d q := by
  rw [scaleDim]
  split <;> omega

/-! ## String and path lemmas -/

theorem startsWithL_iff_take (p s : S) :
    startsWithL p s = true ↔ s.take p.length = p := by
  induction p generalizing s with
  | nil => simp [startsWithL]
  | cons x xs ih =>
    cases s with
    | nil => simp [startsWithL]
    | cons c cs =>
      simp only [startsWithL, Bool.and_eq_true, beq_iff_eq, List.length_cons,
        List.take_succ_cons, List.cons.injEq, ih]
      tauto

theorem startsWithL_length_le (p s : S) (h : startsWithL p s = true) :
    p.length ≤ s.length := by
  rw [startsWithL_iff_take] at h
  have := congrArg List.length h
  simp only [List.length_take] at this
  omega

theorem startsWithL_append (p s t : S) (h : startsWithL p s = true) :
    startsWithL p (s ++ t) = true := by
  have hle := startsWithL_length_le p s h
  rw [startsWithL_iff_take] at h ⊢
  rw [List.take_append_of_le_length hle, h]

theorem containsSub_nil (s : S) : containsSub [] s = true := by
  induction s with
  | nil => rfl
  | cons c cs ih => simp [containsSub, startsWithL]

theorem containsSub_append_right (pat s t : S) (h : containsSub pat s = true) :
    containsSub pat (s ++ t) = true := by
  induction s with
  | nil =>
    simp only [containsSub, List.isEmpty_iff] at h
    subst h
    exact containsSub_nil t
  | cons c cs ih =>
    simp only [containsSub, Bool.or_eq_true] at h ⊢
    rcases h with h | h
    · exact Or.inl (startsWithL_append _ _ _ h)
    · exact Or.inr (ih h)

theorem containsSub_false_of_append (pat s t : S)
    (h : containsSub pat (s ++ t) = false) : containsSub pat s = false := by
  by_contra hc
  rw [Bool.not_eq_false] at hc
  rw [containsSub_append_right pat s t hc] at h
  simp at h

theorem splitLast_eq_none (ch : Char) (s : S) (h : ch ∉ s) :
    splitLast ch s = none := by
  induction s with
  | nil => rfl
  | cons c cs ih =>
    simp only [List.mem_cons, not_or] at h
    simp [splitLast, ih h.2, h.1, Ne.symm h.1]

theorem splitLast_append_cons (ch : Char) (b a : S) (h : ch ∉ a) :
    splitLast ch (b ++ ch :: a) = some (b, a) := by
  induction b with
  | nil => simp [splitLast, splitLast_eq_none ch a h]
  | cons x xs ih => simp [splitLast, ih]

theorem splitLast_spec (ch : Char) (s b a : S) (h : splitLast ch s = some (b, a)) :
    s = b ++ ch :: a := by
  induction s generalizing b a with
  | nil => simp [splitLast] at h
  | cons x rest ih =>
    simp only [splitLast] at h
    rcases hr : splitLast ch rest with _ | ⟨b', aft⟩
    · rw [hr] at h
      by_cases hx : x = ch
      · rw [if_pos hx] at h
        simp only [Option.some.injEq, Prod.mk.injEq] at h
        rw [← h.1, ← h.2, hx]
        rfl
      · rw [if_neg hx] at h
        exact absurd h (by simp)
    · rw [hr] at h
      simp only [Option.some.injEq, Prod.mk.injEq] at h
      rw [← h.1, ← h.2]
      simpa using ih b' aft hr

theorem splitextComp_append (c : S) :
    (splitextComp c).1 ++ (splitextComp c).2 = c := by
  rcases h : splitLast '.' c with _ | ⟨pre, post⟩
  · simp [splitextComp, h]
  · have hc := splitLast_spec '.' c pre post h
    simp only [splitextComp, h]
    split
    · simpa using hc.symm
    · simp

theorem splitext_append (p : S) : (splitext p).1 ++ (splitext p).2 = p := by
  rcases h : splitLast '/' p with _ | ⟨d, comp⟩
  · simp only [splitext, h]
    exact splitextComp_append p
  · have hp := splitLast_spec '/' p d comp h
    simp only [splitext, h, List.append_assoc, List.cons_append]
    rw [splitextComp_append comp, ← hp]

theorem pyJoin_nil_left (b : S) : pyJoin [] b = b := by
  rw [pyJoin]
  split
  · rfl
  · rw [if_pos rfl]

theorem replaceAllF_fuel (pat rep : S) (f g : ℕ) (s : S)
    (hf : s.length ≤ f) (hg : s.length ≤ g) :
    replaceAllF pat rep f s = replaceAllF pat rep g s := by
  induction f generalizing g s with
  | zero =>
    have hs : s = [] := List.length_eq_zero.mp (Nat.le_zero.mp hf)
    subst hs
    cases g <;> rfl
  | succ f ih =>
    cases s with
    | nil => cases g <;> rfl
    | cons c rest =>
      cases g with
      | zero => simp at hg
      | succ g =>
        have hrf : rest.length ≤ f := by simpa using hf
        have hrg : rest.length ≤ g := by simpa using hg
        simp only [replaceAllF]
        split
        · have hdl : (List.drop (pat.length - 1) rest).length ≤ rest.length := by
            rw [List.length_drop]
            omega
          rw [ih _ _ (le_trans hdl hrf) (le_trans hdl hrg)]
        · rw [ih _ _ hrf hrg]

theorem replaceAll_nil (pat rep : S) : replaceAll pat rep [] = [] := rfl

/-- The unfolding equation of `replaceAll` on a nonempty string. -/
theorem replaceAll_cons (pat rep : S) (c : Char) (rest : S) :
    replaceAll pat rep (c :: rest) =
      if startsWithL pat (c :: rest) then
        rep ++ replaceAll pat rep (List.drop (pat.length - 1) rest)
      else c :: replaceAll pat rep rest := by
  simp only [replaceAll, List.length_cons, replaceAllF]
  split
  · rw [replaceAllF_fuel pat rep rest.length (List.drop (pat.length - 1) rest).length]
    · rw [List.length_drop]
      omega
    · exact le_refl _
  · rfl

theorem replaceAll_of_not_contains (pat rep s : S) (h : containsSub pat s = false) :
    replaceAll pat rep s = s := by
  induction s with
  | nil => rfl
  | cons c rest ih =>
    simp only [containsSub, Bool.or_eq_false_iff] at h
    rw [replaceAll_cons, if_neg (by simp [h.1]), ih h.2]

theorem startsWithL_cons_false (pat : S) (hne : pat ≠ []) (c : Char)
    (hc : c ∉ pat) (t : S) : startsWithL pat (c :: t) = false := by
  cases pat with
  | nil => exact absurd rfl hne
  | cons p ps =>
    simp only [List.mem_cons, not_or] at hc
    have hpc : (p == c) = false := by
      simp only [beq_eq_false_iff_ne, ne_eq]
      exact fun h => hc.1 h.symm
    simp [startsWithL, hpc]

/-- If a slash-free pattern has an occurrence starting inside the prefix
`d` of `d ++ '/' :: b`, the occurrence lies entirely inside `d`: replacing
over the concatenation factors through the slash. -/
theorem replaceAll_append_slash (pat : S) (hne : pat ≠ []) (hsl : '/' ∉ pat) :
    ∀ (n : ℕ) (d b : S), d.length ≤ n →
      replaceAll pat [] (d ++ '/' :: b) =
        replaceAll pat [] d ++ '/' :: replaceAll pat [] b := by
  intro n
  induction n with
  | zero =>
    intro d b hd
    have : d = [] := List.length_eq_zero.mp (Nat.le_zero.mp hd)
    subst this
    simp only [List.nil_append, replaceAll_nil]
    rw [replaceAll_cons, if_neg (by simp [startsWithL_cons_false pat hne '/' hsl])]
  | succ n ih =>
    intro d b hd
    cases d with
    | nil =>
      simp only [List.nil_append, replaceAll_nil]
      rw [replaceAll_cons, if_neg (by simp [startsWithL_cons_false pat hne '/' hsl])]
    | cons c d' =>
      have hd' : d'.length ≤ n := by simpa using hd
      simp only [List.cons_append]
      by_cases hsw : startsWithL pat (c :: (d' ++ '/' :: b)) = true
      · have hsw2 : startsWithL pat ((c :: d') ++ ('/' :: b)) = true := by
          simpa using hsw
        have hlen : pat.length ≤ (c :: d').length := by
          by_contra hlt
          push_neg at hlt
          rw [startsWithL_iff_take] at hsw2
          have htk : ((c :: d') ++ ('/' :: b)).take pat.length
              = (c :: d') ++ ('/' :: b).take (pat.length - (c :: d').length) := by
            rw [List.take_append_eq_append_take,
              List.take_of_length_le (le_of_lt hlt)]
          have hmem : '/' ∈ pat := by
            rw [← hsw2, htk]
            have hnz : pat.length - (c :: d').length ≠ 0 := by
              simp only [List.length_cons] at hlt ⊢
              omega
            rcases Nat.exists_eq_succ_of_ne_zero hnz with ⟨k, hk⟩
            rw [hk]
            simp
          exact hsl hmem
        have hswd : startsWithL pat (c :: d') = true := by
          rw [startsWithL_iff_take] at hsw2 ⊢
          rw [List.take_append_of_le_length hlen] at hsw2
          exact hsw2
        have hdrop : List.drop (pat.length - 1) (d' ++ '/' :: b)
            = List.drop (pat.length - 1) d' ++ '/' :: b := by
          apply List.drop_append_of_le_length
          simp only [List.length_cons] at hlen
          omega
        rw [replaceAll_cons, if_pos hsw, hdrop,
          ih (List.drop (pat.length - 1) d') b (by rw [List.length_drop]; omega),
          replaceAll_cons, if_pos hswd]
        simp
      · have hswd : startsWithL pat (c :: d') = false := by
          by_contra hc
          rw [Bool.not_eq_false] at hc
          have := startsWithL_append pat (c :: d') ('/' :: b) hc
          simp only [List.cons_append] at this
          exact hsw this
        rw [replaceAll_cons, if_neg (by simp [hsw]), ih d' b hd',
          replaceAll_cons, if_neg (by simp [hswd])]
        simp

theorem startsWithL_single_slash (name : S) (hn : '/' ∉ name) :
    startsWithL (chars "/") name = false := by
  cases name with
  | nil => rfl
  | cons c cs =>
    have hc : c ∉ chars "/" := by
      intro h
      apply hn
      have hce : c = '/' := by simpa [chars] using h
      rw [← hce]
      exact List.mem_cons_self c cs
    exact startsWithL_cons_false (chars "/") (by simp [chars]) c hc cs

theorem endsWithSlash_decomp (s : S) (h : endsWithSlash s = true) :
    ∃ t : S, s = t ++ ['/'] := by
  induction s using List.reverseRecOn with
  | nil => simp [endsWithSlash] at h
  | append_singleton xs x _ =>
    refine ⟨xs, ?_⟩
    rw [endsWithSlash, List.getLast?_concat] at h
    simp only [beq_iff_eq] at h
    rw [h]

/-- Joining the same folder with two names that differ in their final
characters yields different paths. -/
theorem pyJoin_append_ne (folder base : S) :
    pyJoin folder (base ++ chars ".png") ≠ pyJoin folder (base ++ chars ".jpg") := by
  have hne : base ++ chars ".png" ≠ base ++ chars ".jpg" := by
    intro h
    have hc := List.append_cancel_left h
    simp [chars] at hc
  have hsw : startsWithL (chars "/") (base ++ chars ".png")
      = startsWithL (chars "/") (base ++ chars ".jpg") := by
    cases base with
    | nil => rfl
    | cons c cs => rfl
  intro heq
  rw [pyJoin, pyJoin] at heq
  by_cases h1 : startsWithL (chars "/") (base ++ chars ".png") = true
  · rw [if_pos h1, if_pos (hsw.symm.trans h1)] at heq
    exact hne heq
  · rw [if_neg h1, if_neg (fun hc => h1 (hsw.trans hc))] at heq
    by_cases h2 : folder = []
    · rw [if_pos h2, if_pos h2] at heq
      exact hne heq
    · rw [if_neg h2, if_neg h2] at heq
      by_cases h3 : endsWithSlash folder = true
      · rw [if_pos h3, if_pos h3] at heq
        exact hne (List.append_cancel_left heq)
      · rw [if_neg h3, if_neg h3] at heq
        have h4 := List.append_cancel_left heq
        injection h4 with h5 h6
        exact hne h6

/-! ## Claims -/

/-- Claim C1: for every positive integer source dimension `d` and every
factor `f` in `(0, 1]`, the scale resolution used for derivative
generation returns exactly `max 1 (round (d * f))`, where `round` is
round-half-away-from-zero (never truncation); in particular
`resolve 100 0.6666667 = 67` and `resolve 2 0.1 = 1`, and every returned
target dimension is an integer at least 1. -/
theorem C1_scale_resolution (d : ℕ) (f : ℚ) (hd : 0 < d) (hf0 : 0 < f)
    (hf1 : f ≤ 1) :
    (scaleDim d f : ℤ) = max 1 (roundHalfAwayFromZero ((d : ℚ) * f))
      ∧ 1 ≤ scaleDim d f
      ∧ scaleDim 100 (mkRat 6666667 10000000) = 67
      ∧ scaleDim 2 (mkRat 1 10) = 1 :=
  ⟨scaleDim_eq_max d f hd hf0, scaleDim_ge_one d f, by decide, by decide⟩

/-- Witness for C1 at `d = 3`, `f = 1/2`, a half-way case where
round-half-away-from-zero (result 2) differs from truncation (1). -/
theorem C1_scale_resolution_witness :
    (scaleDim 3 (mkRat 1 2) : ℤ)
        = max 1 (roundHalfAwayFromZero ((3 : ℚ) * mkRat 1 2))
      ∧ 1 ≤ scaleDim 3 (mkRat 1 2)
      ∧ scaleDim 100 (mkRat 6666667 10000000) = 67
      ∧ scaleDim 2 (mkRat 1 10) = 1 :=
  C1_scale_resolution 3 (mkRat 1 2) (by decide) (by decide) (by decide)

/-- Claim C2 is a code bug: with the exclusion set `{xhdpi}` stored by
`set_exclude_scale`, an Android run on a valid 64×64 source still
generates all four derivatives — including a write into the
`drawable-xhdpi` directory — because `process_file` never consults the
stored `EXCLUDE_SCALE`, although the CLI documents `--exclude-scale` as
excluding a scale. -/
theorem C2_exclude_scale_ignored :
    AndroidResResize.process_file (BaseResizer.set_exclude_scale [chars "xhdpi"])
        diskIcon (chars "res") (chars "icon.png")
      = ([(chars "res/../drawable-xxhdpi/icon.png", ⟨48, 48⟩),
          (chars "res/../drawable-xhdpi/icon.png", ⟨32, 32⟩),
          (chars "res/../drawable-hdpi/icon.png", ⟨24, 24⟩),
          (chars "res/../drawable-mdpi/icon.png", ⟨16, 16⟩)], none)
      ∧ chars "res/../drawable-xhdpi/icon.png"
          ∈ (AndroidResResize.process_file
              (BaseResizer.set_exclude_scale [chars "xhdpi"]) diskIcon
              (chars "res") (chars "icon.png")).1.map Prod.fst := by
  constructor
  · decide
  · decide

/-- Claim C8: PNG conversion of an accepted-extension decodable file
writes `<base-name>.png` (with the decoded image re-encoded) into the same
directory as the input and raises nothing; if the input is already a
`.png` the written path is the input path itself (overwrite in place), and
if the input is a `.jpg` the written path differs from the input path (the
original `.jpg` is left untouched). -/
theorem C8_png_convert (disk : Disk) (folder_path file_name : S) (img : Img)
    (hext : BaseResizer.can_process_file (splitext file_name).2 = true)
    (himg : disk (pyJoin folder_path file_name) = some img) :
    BaseResizer.png_convert_image disk folder_path file_name
      = ([(pyJoin folder_path ((splitext file_name).1 ++ chars ".png"), img)], none)
      ∧ ((splitext file_name).2 = chars ".png" →
          pyJoin folder_path ((splitext file_name).1 ++ chars ".png")
            = pyJoin folder_path file_name)
      ∧ ((splitext file_name).2 = chars ".jpg" →
          pyJoin folder_path ((splitext file_name).1 ++ chars ".png")
            ≠ pyJoin folder_path file_name) := by
  refine ⟨?_, ?_, ?_⟩
  · simp [BaseResizer.png_convert_image, hext, himg]
  · intro hpng
    conv_rhs => rw [← splitext_append file_name, hpng]
  · intro hjpg
    conv_rhs => rw [← splitext_append file_name, hjpg]
    exact pyJoin_append_ne folder_path (splitext file_name).1

/-- Witness for C8 on the `.jpg` input `dir/photo.jpg` (33×44). -/
theorem C8_png_convert_witness :
    BaseResizer.png_convert_image diskConvert (chars "dir") (chars "photo.jpg")
      = ([(pyJoin (chars "dir")
            ((splitext (chars "photo.jpg")).1 ++ chars ".png"), ⟨33, 44⟩)], none)
      ∧ ((splitext (chars "photo.jpg")).2 = chars ".png" →
          pyJoin (chars "dir") ((splitext (chars "photo.jpg")).1 ++ chars ".png")
            = pyJoin (chars "dir") (chars "photo.jpg"))
      ∧ ((splitext (chars "photo.jpg")).2 = chars ".jpg" →
          pyJoin (chars "dir") ((splitext (chars "photo.jpg")).1 ++ chars ".png")
            ≠ pyJoin (chars "dir") (chars "photo.jpg")) :=
  C8_png_convert diskConvert (chars "dir") (chars "photo.jpg") ⟨33, 44⟩
    (by decide) (by decide)

/-- Claim C9: in exact-dimension (`WxH`) resize mode on an
accepted-extension decodable single file, the resized image is saved back
to the original input file path — the single write's destination is the
source path itself, overwriting it in place. -/
theorem C9_exact_resize_in_place (disk : Disk) (input_directory file_name : S)
    (width height : ℕ) (img : Img)
    (hext : BaseResizer.can_process_file (splitext file_name).2 = true)
    (himg : disk (pyJoin input_directory file_name) = some img) :
    process_resizing_file disk input_directory file_name width height
      = ([(pyJoin input_directory file_name, ⟨width, height⟩)],
          Except.ok (some ⟨width, height⟩))
      ∧ (process_resizing_file disk input_directory file_name width height).1.map
          Prod.fst = [pyJoin input_directory file_name] := by
  have h1 : process_resizing_file disk input_directory file_name width height
      = ([(pyJoin input_directory file_name, ⟨width, height⟩)],
          Except.ok (some ⟨width, height⟩)) := by
    simp [process_resizing_file, BaseResizer.resize_image, hext, himg]
  refine ⟨h1, ?_⟩
  rw [h1]
  rfl

/-- Witness for C9 on the 400×300 `res/banner.png`, resized to 120×80. -/
theorem C9_exact_resize_in_place_witness :
    process_resizing_file diskBanner (chars "res") (chars "banner.png") 120 80
      = ([(pyJoin (chars "res") (chars "banner.png"), ⟨120, 80⟩)],
          Except.ok (some ⟨120, 80⟩))
      ∧ (process_resizing_file diskBanner (chars "res") (chars "banner.png")
          120 80).1.map Prod.fst = [pyJoin (chars "res") (chars "banner.png")] :=
  C9_exact_resize_in_place diskBanner (chars "res") (chars "banner.png") 120 80
    ⟨400, 300⟩ (by decide) (by decide)

/-- Claim C5: for every eligible (accepted-extension, decodable) source
file processed in Android mode with no exclusions, exactly four
derivatives are produced with the factor mapping
`{xxhdpi: 0.75, xhdpi: 0.5, hdpi: 0.375, mdpi: 0.25}`, each written with
the unchanged file name into `inputDirectory/../drawable-<label>/`; on the
192×192 source the dimensions are 144, 96, 72, 48. -/
theorem C5_android_derivatives (disk : Disk) (input_directory file_name : S)
    (img : Img)
    (hext : BaseResizer.can_process_file
      (splitext (pyJoin input_directory file_name)).2 = true)
    (himg : disk (pyJoin input_directory file_name) = some img) :
    AndroidResResize.process_file [] disk input_directory file_name
      = ([(pyJoin (pyJoin input_directory (chars "../drawable-xxhdpi/")) file_name,
            ⟨scaleDim img.width (mkRat 3 4), scaleDim img.height (mkRat 3 4)⟩),
          (pyJoin (pyJoin input_directory (chars "../drawable-xhdpi/")) file_name,
            ⟨scaleDim img.width (mkRat 2 4), scaleDim img.height (mkRat 2 4)⟩),
          (pyJoin (pyJoin input_directory (chars "../drawable-hdpi/")) file_name,
            ⟨scaleDim img.width (mkRat 15 40), scaleDim img.height (mkRat 15 40)⟩),
          (pyJoin (pyJoin input_directory (chars "../drawable-mdpi/")) file_name,
            ⟨scaleDim img.width (mkRat 1 4), scaleDim img.height (mkRat 1 4)⟩)],
         none)
      ∧ AndroidResResize.process_file [] diskXxxhdpi (chars "res/drawable-xxxhdpi")
          (chars "icon.png")
        = ([(chars "res/drawable-xxxhdpi/../drawable-xxhdpi/icon.png", ⟨144, 144⟩),
            (chars "res/drawable-xxxhdpi/../drawable-xhdpi/icon.png", ⟨96, 96⟩),
            (chars "res/drawable-xxxhdpi/../drawable-hdpi/icon.png", ⟨72, 72⟩),
            (chars "res/drawable-xxxhdpi/../drawable-mdpi/icon.png", ⟨48, 48⟩)],
           none) := by
  constructor
  · have e1 : chars "../drawable-" ++ chars "xxhdpi" ++ chars "/"
        = chars "../drawable-xxhdpi/" := rfl
    have e2 : chars "../drawable-" ++ chars "xhdpi" ++ chars "/"
        = chars "../drawable-xhdpi/" := rfl
    have e3 : chars "../drawable-" ++ chars "hdpi" ++ chars "/"
        = chars "../drawable-hdpi/" := rfl
    have e4 : chars "../drawable-" ++ chars "mdpi" ++ chars "/"
        = chars "../drawable-mdpi/" := rfl
    simp [AndroidResResize.process_file, AndroidResResize.SCALES,
      AndroidResResize.scalesLoop, BaseResizer.scale_image,
      BaseResizer.resize_image, pyJoin_nil_left, hext, himg, e1, e2, e3, e4]
  · decide

/-- Witness for C5 on a 64×64 `res/icon.png`. -/
theorem C5_android_derivatives_witness :
    AndroidResResize.process_file [] diskIcon (chars "res") (chars "icon.png")
      = ([(pyJoin (pyJoin (chars "res") (chars "../drawable-xxhdpi/")) (chars "icon.png"),
            ⟨scaleDim 64 (mkRat 3 4), scaleDim 64 (mkRat 3 4)⟩),
          (pyJoin (pyJoin (chars "res") (chars "../drawable-xhdpi/")) (chars "icon.png"),
            ⟨scaleDim 64 (mkRat 2 4), scaleDim 64 (mkRat 2 4)⟩),
          (pyJoin (pyJoin (chars "res") (chars "../drawable-hdpi/")) (chars "icon.png"),
            ⟨scaleDim 64 (mkRat 15 40), scaleDim 64 (mkRat 15 40)⟩),
          (pyJoin (pyJoin (chars "res") (chars "../drawable-mdpi/")) (chars "icon.png"),
            ⟨scaleDim 64 (mkRat 1 4), scaleDim 64 (mkRat 1 4)⟩)], none)
      ∧ AndroidResResize.process_file [] diskXxxhdpi (chars "res/drawable-xxxhdpi")
          (chars "icon.png")
        = ([(chars "res/drawable-xxxhdpi/../drawable-xxhdpi/icon.png", ⟨144, 144⟩),
            (chars "res/drawable-xxxhdpi/../drawable-xhdpi/icon.png", ⟨96, 96⟩),
            (chars "res/drawable-xxxhdpi/../drawable-hdpi/icon.png", ⟨72, 72⟩),
            (chars "res/drawable-xxxhdpi/../drawable-mdpi/icon.png", ⟨48, 48⟩)],
           none) :=
  C5_android_derivatives diskIcon (chars "res") (chars "icon.png") ⟨64, 64⟩
    (by decide) (by decide)

/-- Counterexample to Claim C3: in a folder batch where the unreadable
`bad.png` precedes the valid `good.png`, the run aborts with the decode
exception and produces no writes at all, although `good.png` alone would
produce all four derivatives — a single bad file does halt the folder-wide
run. -/
theorem C3_bad_file_halts_batch :
    BaseResizer.resize_all_in_folder
        (AndroidResResize.process_file [] diskBadGood) (chars "res")
        [chars "bad.png", chars "good.png"]
      = ([], some (RunErr.decodeError (chars "res/bad.png")))
      ∧ BaseResizer.resize_all_in_folder
          (AndroidResResize.process_file [] diskBadGood) (chars "res")
          [chars "good.png"]
        = ([(chars "res/../drawable-xxhdpi/good.png", ⟨75, 75⟩),
            (chars "res/../drawable-xhdpi/good.png", ⟨50, 50⟩),
            (chars "res/../drawable-hdpi/good.png", ⟨38, 38⟩),
            (chars "res/../drawable-mdpi/good.png", ⟨25, 25⟩)], none) := by
  constructor
  · decide
  · decide

/-- Claim C3 as amended: `resize_all_in_folder` has no per-file exception
handling; when the first failing file `bad` (not skipped by the NinePatch
gate) raises, the batch stops there: the files before it are processed,
the exception propagates, and no file after `bad` is touched (the result
does not depend on `files₂`). -/
theorem C3_batch_halts_at_first_failure (process : S → S → ProcResult)
    (input_path : S) (files₁ : List S) (bad : S) (files₂ : List S) (e : RunErr)
    (h₁ : ∀ f ∈ files₁, pyLast6 f ∈ BaseResizer.UNACCEPTED_EXTENSIONS
        ∨ (process input_path f).2 = none)
    (hbad₁ : pyLast6 bad ∉ BaseResizer.UNACCEPTED_EXTENSIONS)
    (hbad₂ : (process input_path bad).2 = some e) :
    BaseResizer.resize_all_in_folder process input_path (files₁ ++ bad :: files₂)
      = ((BaseResizer.resize_all_in_folder process input_path files₁).1
          ++ (process input_path bad).1, some e) := by
  induction files₁ with
  | nil =>
    rcases hpb : process input_path bad with ⟨ws, e'⟩
    rw [hpb] at hbad₂
    simp only at hbad₂
    subst hbad₂
    simp only [List.nil_append, BaseResizer.resize_all_in_folder, if_neg hbad₁, hpb]
  | cons f fs ih =>
    have hf := h₁ f (List.mem_cons_self f fs)
    have hrest : ∀ g ∈ fs, pyLast6 g ∈ BaseResizer.UNACCEPTED_EXTENSIONS
        ∨ (process input_path g).2 = none :=
      fun g hg => h₁ g (List.mem_cons_of_mem f hg)
    by_cases hskip : pyLast6 f ∈ BaseResizer.UNACCEPTED_EXTENSIONS
    · simp only [List.cons_append, BaseResizer.resize_all_in_folder, if_pos hskip]
      exact ih hrest
    · have hf2 : (process input_path f).2 = none := hf.resolve_left hskip
      rcases hpf : process input_path f with ⟨wsf, ef⟩
      rw [hpf] at hf2
      simp only at hf2
      subst hf2
      simp only [List.cons_append, BaseResizer.resize_all_in_folder, if_neg hskip,
        hpf, List.append_eq]
      rw [ih hrest]
      simp

/-- Witness for the amended C3 with `bad.png` first and `good.png` after
it: the run stops at `bad.png` and never reaches `good.png`. -/
theorem C3_batch_halts_at_first_failure_witness :
    BaseResizer.resize_all_in_folder
        (AndroidResResize.process_file [] diskBadGood) (chars "res")
        ([] ++ chars "bad.png" :: [chars "good.png"])
      = ((BaseResizer.resize_all_in_folder
            (AndroidResResize.process_file [] diskBadGood) (chars "res") []).1
          ++ (AndroidResResize.process_file [] diskBadGood (chars "res")
              (chars "bad.png")).1,
         some (RunErr.decodeError (chars "res/bad.png"))) :=
  C3_batch_halts_at_first_failure
    (AndroidResResize.process_file [] diskBadGood) (chars "res") []
    (chars "bad.png") [chars "good.png"]
    (RunErr.decodeError (chars "res/bad.png"))
    (by intro f hf; exact absurd hf (List.not_mem_nil f))
    (by decide) (by decide)

/-- Counterexample to Claim C6: the NinePatch file `button.9.png` IS
processed when passed as a single file (`process_file` applies only the
extension gate, and `.png` is accepted), producing four derivatives; the
NinePatch exclusion exists only in the folder-batch loop. -/
theorem C6_ninepatch_single_file_processed :
    AndroidResResize.process_file [] diskNinePatch (chars "res")
        (chars "button.9.png")
      = ([(chars "res/../drawable-xxhdpi/button.9.png", ⟨8, 8⟩),
          (chars "res/../drawable-xhdpi/button.9.png", ⟨5, 5⟩),
          (chars "res/../drawable-hdpi/button.9.png", ⟨4, 4⟩),
          (chars "res/../drawable-mdpi/button.9.png", ⟨3, 3⟩)], none)
      ∧ (AndroidResResize.process_file [] diskNinePatch (chars "res")
          (chars "button.9.png")).1 ≠ [] := by
  constructor
  · decide
  · decide

/-- Claim C6 as amended: the accepted-extension gate `{.png, .jpg}`
applies to every processed file, while the NinePatch exclusion
(`[-6:] == ".9.png"`) is enforced only during folder batch processing:
a NinePatch name anywhere in a batch contributes nothing (deleting it
leaves the batch result unchanged), a file with an unaccepted extension
produces nothing even in single-file mode, and the batch containing only
`button.9.png` does nothing at all. -/
theorem C6_eligibility_gate (process : S → S → ProcResult) (disk : Disk)
    (input_path file_name : S) (files₁ files₂ : List S) (EXCLUDE_SCALE : List S)
    (hnine : pyLast6 file_name = chars ".9.png") :
    BaseResizer.resize_all_in_folder process input_path
        (files₁ ++ file_name :: files₂)
      = BaseResizer.resize_all_in_folder process input_path (files₁ ++ files₂)
      ∧ (∀ dir name : S,
          BaseResizer.can_process_file (splitext (pyJoin dir name)).2 = false →
          AndroidResResize.process_file EXCLUDE_SCALE disk dir name = ([], none))
      ∧ BaseResizer.resize_all_in_folder
          (AndroidResResize.process_file [] diskNinePatch) (chars "res")
          [chars "button.9.png"] = ([], none) := by
  refine ⟨?_, ?_, by decide⟩
  · have hmem : pyLast6 file_name ∈ BaseResizer.UNACCEPTED_EXTENSIONS := by
      rw [hnine]
      exact List.mem_singleton.mpr rfl
    induction files₁ with
    | nil =>
      simp only [List.nil_append, BaseResizer.resize_all_in_folder, if_pos hmem]
    | cons f fs ih =>
      by_cases hskip : pyLast6 f ∈ BaseResizer.UNACCEPTED_EXTENSIONS
      · simp only [List.cons_append, BaseResizer.resize_all_in_folder,
          if_pos hskip]
        exact ih
      · rcases hpf : process input_path f with ⟨wsf, ef⟩
        cases ef with
        | some e =>
          simp only [List.cons_append, BaseResizer.resize_all_in_folder,
            if_neg hskip, hpf]
        | none =>
          simp only [List.cons_append, BaseResizer.resize_all_in_folder,
            if_neg hskip, hpf, List.append_eq]
          rw [ih]
  · intro dir name h
    rw [AndroidResResize.process_file]
    simp only [h]
    rfl

/-- Witness for the amended C6: the batch gate drops `button.9.png`, and
the unaccepted extension `.txt` yields no processing in single-file
mode. -/
theorem C6_eligibility_gate_witness :
    BaseResizer.resize_all_in_folder
        (AndroidResResize.process_file [] diskNinePatch) (chars "res")
        ([] ++ chars "button.9.png" :: [])
      = BaseResizer.resize_all_in_folder
          (AndroidResResize.process_file [] diskNinePatch) (chars "res")
          ([] ++ [])
      ∧ AndroidResResize.process_file [] diskNinePatch (chars "res")
          (chars "notes.txt") = ([], none)
      ∧ BaseResizer.resize_all_in_folder
          (AndroidResResize.process_file [] diskNinePatch) (chars "res")
          [chars "button.9.png"] = ([], none) :=
  have h := C6_eligibility_gate
    (AndroidResResize.process_file [] diskNinePatch) diskNinePatch
    (chars "res") (chars "button.9.png") [] [] [] (by decide)
  ⟨h.1, h.2.1 (chars "res") (chars "notes.txt") (by decide), h.2.2⟩

/-- The write list of `IOSResResize.process_file` on a decodable source
that passes the gate: one write per scale entry, at
`os.path.join(input_directory, stripped_full_base + label + ext)`, where
`stripped_full_base` is the base of the *joined* path with every
occurrence of `"@3x"` removed. -/
theorem ios_process_file_writes (disk : Disk) (input_directory file_name : S)
    (img : Img)
    (hgate : IOSResResize.should_process_file
        (splitext (pyJoin input_directory file_name)).1
        (splitext (pyJoin input_directory file_name)).2 false = true)
    (himg : disk (pyJoin input_directory file_name) = some img) :
    IOSResResize.process_file false disk input_directory file_name
      = ([(pyJoin input_directory
            (replaceAll (chars "@3x") []
                (splitext (pyJoin input_directory file_name)).1
              ++ chars "@2x" ++ (splitext (pyJoin input_directory file_name)).2),
           ⟨scaleDim img.width (mkRat 66666666666666 100000000000000),
            scaleDim img.height (mkRat 66666666666666 100000000000000)⟩),
          (pyJoin input_directory
            (replaceAll (chars "@3x") []
                (splitext (pyJoin input_directory file_name)).1
              ++ chars "@1x" ++ (splitext (pyJoin input_directory file_name)).2),
           ⟨scaleDim img.width (mkRat 33333333333333 100000000000000),
            scaleDim img.height (mkRat 33333333333333 100000000000000)⟩)],
         none) := by
  have hext : BaseResizer.can_process_file
      (splitext (pyJoin input_directory file_name)).2 = true := by
    rw [IOSResResize.should_process_file, Bool.and_eq_true] at hgate
    exact hgate.1
  simp [IOSResResize.process_file, IOSResResize.SCALES, IOSResResize.scalesLoop,
    BaseResizer.scale_image, BaseResizer.resize_image, pyJoin_nil_left,
    hgate, himg, hext]

/-- Counterexample to Claim C4: for the 300×300 source `a@3x@3x.png` in
input directory `res`, the iOS scale-table run writes to
`res/res/a@2x.png` and `res/res/a@1x.png` — the directory is prefixed
twice (the stripped base of the *joined* path is re-joined with the input
directory) and *both* `"@3x"` occurrences are removed, so neither the
claimed `res/a@3x@2x.png` (first occurrence only) nor `res/a@2x.png`
(file placed directly in the input directory) is produced. -/
theorem C4_ios_naming_counterexample :
    IOSResResize.process_file false diskDouble3x (chars "res")
        (chars "a@3x@3x.png")
      = ([(chars "res/res/a@2x.png", ⟨200, 200⟩),
          (chars "res/res/a@1x.png", ⟨100, 100⟩)], none)
      ∧ chars "res/a@3x@2x.png"
          ∉ (IOSResResize.process_file false diskDouble3x (chars "res")
              (chars "a@3x@3x.png")).1.map Prod.fst
      ∧ chars "res/a@2x.png"
          ∉ (IOSResResize.process_file false diskDouble3x (chars "res")
              (chars "a@3x@3x.png")).1.map Prod.fst := by
  refine ⟨?_, ?_, ?_⟩
  · decide
  · decide
  · decide

/-- Claim C4 as amended: each iOS scale-table output is written to
`os.path.join(inputDirectory, S + label + ext)` where `S` is the base
name of the full joined source path with **all** occurrences of `"@3x"`
removed (for a nonempty relative input directory this prefixes the
directory twice); when the input directory is empty — the way a bare
`--file icon@3x.png` is split — this reduces to
`<stripped-base-name><label><extension>` next to the source, and a
300×300 `icon@3x.png` yields `icon@2x.png` at 200×200 and `icon@1x.png`
at 100×100. -/
theorem C4_ios_scale_naming (disk : Disk) (input_directory file_name : S)
    (img : Img)
    (hgate : IOSResResize.should_process_file
        (splitext (pyJoin input_directory file_name)).1
        (splitext (pyJoin input_directory file_name)).2 false = true)
    (himg : disk (pyJoin input_directory file_name) = some img) :
    IOSResResize.process_file false disk input_directory file_name
      = ([(pyJoin input_directory
            (replaceAll (chars "@3x") []
                (splitext (pyJoin input_directory file_name)).1
              ++ chars "@2x" ++ (splitext (pyJoin input_directory file_name)).2),
           ⟨scaleDim img.width (mkRat 66666666666666 100000000000000),
            scaleDim img.height (mkRat 66666666666666 100000000000000)⟩),
          (pyJoin input_directory
            (replaceAll (chars "@3x") []
                (splitext (pyJoin input_directory file_name)).1
              ++ chars "@1x" ++ (splitext (pyJoin input_directory file_name)).2),
           ⟨scaleDim img.width (mkRat 33333333333333 100000000000000),
            scaleDim img.height (mkRat 33333333333333 100000000000000)⟩)],
         none)
      ∧ IOSResResize.process_file false diskAt3x [] (chars "icon@3x.png")
        = ([(chars "icon@2x.png", ⟨200, 200⟩),
            (chars "icon@1x.png", ⟨100, 100⟩)], none) :=
  ⟨ios_process_file_writes disk input_directory file_name img hgate himg,
   by decide⟩

/-- Witness for the amended C4 on `res/a@3x@3x.png` (300×300). -/
theorem C4_ios_scale_naming_witness :
    IOSResResize.process_file false diskDouble3x (chars "res")
        (chars "a@3x@3x.png")
      = ([(pyJoin (chars "res")
            (replaceAll (chars "@3x") []
                (splitext (pyJoin (chars "res") (chars "a@3x@3x.png"))).1
              ++ chars "@2x"
              ++ (splitext (pyJoin (chars "res") (chars "a@3x@3x.png"))).2),
           ⟨scaleDim 300 (mkRat 66666666666666 100000000000000),
            scaleDim 300 (mkRat 66666666666666 100000000000000)⟩),
          (pyJoin (chars "res")
            (replaceAll (chars "@3x") []
                (splitext (pyJoin (chars "res") (chars "a@3x@3x.png"))).1
              ++ chars "@1x"
              ++ (splitext (pyJoin (chars "res") (chars "a@3x@3x.png"))).2),
           ⟨scaleDim 300 (mkRat 33333333333333 100000000000000),
            scaleDim 300 (mkRat 33333333333333 100000000000000)⟩)],
         none)
      ∧ IOSResResize.process_file false diskAt3x [] (chars "icon@3x.png")
        = ([(chars "icon@2x.png", ⟨200, 200⟩),
            (chars "icon@1x.png", ⟨100, 100⟩)], none) :=
  C4_ios_scale_naming diskDouble3x (chars "res") (chars "a@3x@3x.png")
    ⟨300, 300⟩ (by decide) (by decide)

/-- Counterexample to Claim C7: `logo.png` has no `"@3x"` in its own name,
yet in iOS scale-table mode it is NOT skipped when the input directory
(`art@3x`) contains `"@3x"`, because the gate examines the base of the
full joined path; two derivatives are produced. -/
theorem C7_dir_at3x_not_skipped :
    IOSResResize.process_file false diskDirAt3x (chars "art@3x")
        (chars "logo.png")
      = ([(chars "art@3x/art/logo@2x.png", ⟨200, 200⟩),
          (chars "art@3x/art/logo@1x.png", ⟨100, 100⟩)], none)
      ∧ (IOSResResize.process_file false diskDirAt3x (chars "art@3x")
          (chars "logo.png")).1 ≠ [] := by
  constructor
  · decide
  · decide

/-- Claim C7 as amended: an accepted-extension file is skipped in iOS
scale-table mode when the base of its full joined path (directory portion
included) lacks `"@3x"`; and in app-icon mode the `"@3x"` check is
bypassed: any accepted-extension decodable file is processed into exactly
10 square derivatives of the fixed sizes
`{29, 40, 58, 76, 80, 87, 120, 152, 167, 180}`, named
`<base-name>-<size>x<size><extension>` in the input directory. -/
theorem C7_app_icon_mode (disk : Disk) (input_directory file_name : S)
    (img : Img) :
    (containsSub (chars "@3x")
        (splitext (pyJoin input_directory file_name)).1 = false →
      IOSResResize.process_file false disk input_directory file_name
        = ([], none))
    ∧ (BaseResizer.can_process_file
          (splitext (pyJoin input_directory file_name)).2 = true →
       disk (pyJoin input_directory file_name) = some img →
       IOSResResize.process_app_icon true disk input_directory file_name
        = ([(pyJoin input_directory
              ((splitext file_name).1 ++ chars "-" ++ natChars 29 ++ chars "x"
                ++ natChars 29 ++ (splitext (pyJoin input_directory file_name)).2),
             ⟨29, 29⟩),
            (pyJoin input_directory
              ((splitext file_name).1 ++ chars "-" ++ natChars 40 ++ chars "x"
                ++ natChars 40 ++ (splitext (pyJoin input_directory file_name)).2),
             ⟨40, 40⟩),
            (pyJoin input_directory
              ((splitext file_name).1 ++ chars "-" ++ natChars 58 ++ chars "x"
                ++ natChars 58 ++ (splitext (pyJoin input_directory file_name)).2),
             ⟨58, 58⟩),
            (pyJoin input_directory
              ((splitext file_name).1 ++ chars "-" ++ natChars 76 ++ chars "x"
                ++ natChars 76 ++ (splitext (pyJoin input_directory file_name)).2),
             ⟨76, 76⟩),
            (pyJoin input_directory
              ((splitext file_name).1 ++ chars "-" ++ natChars 80 ++ chars "x"
                ++ natChars 80 ++ (splitext (pyJoin input_directory file_name)).2),
             ⟨80, 80⟩),
            (pyJoin input_directory
              ((splitext file_name).1 ++ chars "-" ++ natChars 87 ++ chars "x"
                ++ natChars 87 ++ (splitext (pyJoin input_directory file_name)).2),
             ⟨87, 87⟩),
            (pyJoin input_directory
              ((splitext file_name).1 ++ chars "-" ++ natChars 120 ++ chars "x"
                ++ natChars 120 ++ (splitext (pyJoin input_directory file_name)).2),
             ⟨120, 120⟩),
            (pyJoin input_directory
              ((splitext file_name).1 ++ chars "-" ++ natChars 152 ++ chars "x"
                ++ natChars 152 ++ (splitext (pyJoin input_directory file_name)).2),
             ⟨152, 152⟩),
            (pyJoin input_directory
              ((splitext file_name).1 ++ chars "-" ++ natChars 167 ++ chars "x"
                ++ natChars 167 ++ (splitext (pyJoin input_directory file_name)).2),
             ⟨167, 167⟩),
            (pyJoin input_directory
              ((splitext file_name).1 ++ chars "-" ++ natChars 180 ++ chars "x"
                ++ natChars 180 ++ (splitext (pyJoin input_directory file_name)).2),
             ⟨180, 180⟩)], none)) := by
  constructor
  · intro hno
    rw [IOSResResize.process_file]
    simp [IOSResResize.should_process_file, hno]
  · intro hext himg
    rw [IOSResResize.process_app_icon]
    simp [IOSResResize.should_process_file, IOSResResize.APP_ICON_SIZES,
      IOSResResize.appIconLoop, BaseResizer.resize_image, pyJoin_nil_left,
      hext, himg]

/-- Witness for the amended C7 on `icons/logo.png` (300×300): skipped in
scale-table mode, fully processed in app-icon mode. -/
theorem C7_app_icon_mode_witness :
    IOSResResize.process_file false diskLogo (chars "icons") (chars "logo.png")
      = ([], none)
    ∧ IOSResResize.process_app_icon true diskLogo (chars "icons")
        (chars "logo.png")
      = ([(pyJoin (chars "icons")
            ((splitext (chars "logo.png")).1 ++ chars "-" ++ natChars 29
              ++ chars "x" ++ natChars 29
              ++ (splitext (pyJoin (chars "icons") (chars "logo.png"))).2),
           ⟨29, 29⟩),
          (pyJoin (chars "icons")
            ((splitext (chars "logo.png")).1 ++ chars "-" ++ natChars 40
              ++ chars "x" ++ natChars 40
              ++ (splitext (pyJoin (chars "icons") (chars "logo.png"))).2),
           ⟨40, 40⟩),
          (pyJoin (chars "icons")
            ((splitext (chars "logo.png")).1 ++ chars "-" ++ natChars 58
              ++ chars "x" ++ natChars 58
              ++ (splitext (pyJoin (chars "icons") (chars "logo.png"))).2),
           ⟨58, 58⟩),
          (pyJoin (chars "icons")
            ((splitext (chars "logo.png")).1 ++ chars "-" ++ natChars 76
              ++ chars "x" ++ natChars 76
              ++ (splitext (pyJoin (chars "icons") (chars "logo.png"))).2),
           ⟨76, 76⟩),
          (pyJoin (chars "icons")
            ((splitext (chars "logo.png")).1 ++ chars "-" ++ natChars 80
              ++ chars "x" ++ natChars 80
              ++ (splitext (pyJoin (chars "icons") (chars "logo.png"))).2),
           ⟨80, 80⟩),
          (pyJoin (chars "icons")
            ((splitext (chars "logo.png")).1 ++ chars "-" ++ natChars 87
              ++ chars "x" ++ natChars 87
              ++ (splitext (pyJoin (chars "icons") (chars "logo.png"))).2),
           ⟨87, 87⟩),
          (pyJoin (chars "icons")
            ((splitext (chars "logo.png")).1 ++ chars "-" ++ natChars 120
              ++ chars "x" ++ natChars 120
              ++ (splitext (pyJoin (chars "icons") (chars "logo.png"))).2),
           ⟨120, 120⟩),
          (pyJoin (chars "icons")
            ((splitext (chars "logo.png")).1 ++ chars "-" ++ natChars 152
              ++ chars "x" ++ natChars 152
              ++ (splitext (pyJoin (chars "icons") (chars "logo.png"))).2),
           ⟨152, 152⟩),
          (pyJoin (chars "icons")
            ((splitext (chars "logo.png")).1 ++ chars "-" ++ natChars 167
              ++ chars "x" ++ natChars 167
              ++ (splitext (pyJoin (chars "icons") (chars "logo.png"))).2),
           ⟨167, 167⟩),
          (pyJoin (chars "icons")
            ((splitext (chars "logo.png")).1 ++ chars "-" ++ natChars 180
              ++ chars "x" ++ natChars 180
              ++ (splitext (pyJoin (chars "icons") (chars "logo.png"))).2),
           ⟨180, 180⟩)], none) :=
  have h := C7_app_icon_mode diskLogo (chars "icons") (chars "logo.png")
    ⟨300, 300⟩
  ⟨h.1 (by decide), h.2 (by decide) (by decide)⟩

/-- Claim C10: the iOS `"@3x"` eligibility check is evaluated against the
full joined file path with the extension removed, not against the file's
base name alone: an accepted-extension file whose own name lacks `"@3x"`
still passes the gate whenever the input directory contains `"@3x"`, and
`str.replace` then strips the substring from the directory portion of the
base while the file's own stem is carried over unchanged into both output
paths. -/
theorem C10_gate_on_joined_path (disk : Disk) (dir name : S) (img : Img)
    (hdir : dir ≠ [])
    (hns : '/' ∉ name)
    (hext : BaseResizer.can_process_file (splitextComp name).2 = true)
    (hn3 : containsSub (chars "@3x") name = false)
    (hd3 : containsSub (chars "@3x") dir = true)
    (himg : disk (pyJoin dir name) = some img) :
    IOSResResize.should_process_file (splitext (pyJoin dir name)).1
        (splitext (pyJoin dir name)).2 false = true
    ∧ ∃ d0 : S,
        (dir = d0 ∨ dir = d0 ++ ['/'])
        ∧ (splitext (pyJoin dir name)).1 = d0 ++ '/' :: (splitextComp name).1
        ∧ replaceAll (chars "@3x") [] (splitext (pyJoin dir name)).1
            = replaceAll (chars "@3x") [] d0 ++ '/' :: (splitextComp name).1
        ∧ (IOSResResize.process_file false disk dir name).1.map Prod.fst
          = [pyJoin dir ((replaceAll (chars "@3x") [] d0
                ++ '/' :: (splitextComp name).1)
              ++ chars "@2x" ++ (splitextComp name).2),
             pyJoin dir ((replaceAll (chars "@3x") [] d0
                ++ '/' :: (splitextComp name).1)
              ++ chars "@1x" ++ (splitextComp name).2)] := by
  have hnosl : startsWithL (chars "/") name = false :=
    startsWithL_single_slash name hns
  obtain ⟨d0, hd0, hjoin⟩ :
      ∃ d0 : S, (dir = d0 ∨ dir = d0 ++ ['/'])
        ∧ pyJoin dir name = d0 ++ '/' :: name := by
    by_cases hes : endsWithSlash dir = true
    · obtain ⟨t, ht⟩ := endsWithSlash_decomp dir hes
      refine ⟨t, Or.inr ht, ?_⟩
      rw [pyJoin, if_neg (by simp [hnosl]), if_neg hdir, if_pos hes, ht]
      simp
    · refine ⟨dir, Or.inl rfl, ?_⟩
      rw [pyJoin, if_neg (by simp [hnosl]), if_neg hdir, if_neg hes]
  have hsplit : splitext (pyJoin dir name)
      = (d0 ++ '/' :: (splitextComp name).1, (splitextComp name).2) := by
    rw [hjoin]
    simp only [splitext, splitLast_append_cons '/' d0 name hns]
  have hbase3x : containsSub (chars "@3x")
      (d0 ++ '/' :: (splitextComp name).1) = true := by
    rcases hd0 with h | h
    · rw [← h]
      exact containsSub_append_right _ _ _ hd3
    · have hh : containsSub (chars "@3x")
          ((d0 ++ ['/']) ++ (splitextComp name).1) = true :=
        containsSub_append_right _ _ _ (h ▸ hd3)
      simpa [List.append_assoc] using hh
  have hgate : IOSResResize.should_process_file (splitext (pyJoin dir name)).1
      (splitext (pyJoin dir name)).2 false = true := by
    rw [hsplit]
    simp [IOSResResize.should_process_file, hext, hbase3x]
  have hstem : containsSub (chars "@3x") (splitextComp name).1 = false := by
    apply containsSub_false_of_append (chars "@3x") (splitextComp name).1
      (splitextComp name).2
    rw [splitextComp_append]
    exact hn3
  have hrepl : replaceAll (chars "@3x") []
      (d0 ++ '/' :: (splitextComp name).1)
      = replaceAll (chars "@3x") [] d0 ++ '/' :: (splitextComp name).1 := by
    rw [replaceAll_append_slash (chars "@3x") (by decide) (by decide) d0.length
      d0 (splitextComp name).1 (le_refl _)]
    rw [replaceAll_of_not_contains _ _ _ hstem]
  refine ⟨hgate, d0, hd0, by rw [hsplit], ?_, ?_⟩
  · rw [hsplit]
    exact hrepl
  · have hw := ios_process_file_writes disk dir name img hgate himg
    rw [hw]
    simp [hsplit, hrepl]

/-- Witness for C10 on `bg.png` (no `"@3x"` in its name) inside the
directory `assets@3x`. -/
theorem C10_gate_on_joined_path_witness :
    IOSResResize.should_process_file
        (splitext (pyJoin (chars "assets@3x") (chars "bg.png"))).1
        (splitext (pyJoin (chars "assets@3x") (chars "bg.png"))).2 false = true
    ∧ ∃ d0 : S,
        (chars "assets@3x" = d0 ∨ chars "assets@3x" = d0 ++ ['/'])
        ∧ (splitext (pyJoin (chars "assets@3x") (chars "bg.png"))).1
            = d0 ++ '/' :: (splitextComp (chars "bg.png")).1
        ∧ replaceAll (chars "@3x") []
            (splitext (pyJoin (chars "assets@3x") (chars "bg.png"))).1
            = replaceAll (chars "@3x") [] d0
              ++ '/' :: (splitextComp (chars "bg.png")).1
        ∧ (IOSResResize.process_file false diskBg (chars "assets@3x")
            (chars "bg.png")).1.map Prod.fst
          = [pyJoin (chars "assets@3x")
              ((replaceAll (chars "@3x") [] d0
                  ++ '/' :: (splitextComp (chars "bg.png")).1)
                ++ chars "@2x" ++ (splitextComp (chars "bg.png")).2),
             pyJoin (chars "assets@3x")
              ((replaceAll (chars "@3x") [] d0
                  ++ '/' :: (splitextComp (chars "bg.png")).1)
                ++ chars "@1x" ++ (splitextComp (chars "bg.png")).2)] :=
  C10_gate_on_joined_path diskBg (chars "assets@3x") (chars "bg.png")
    ⟨300, 300⟩ (by decide) (by decide) (by decide) (by decide) (by decide)
    (by decide)
